import Mathlib

/-!
Shallow embedding of the woodiesgroup chat backend (Express + Mongoose).
Collections of the document store are modelled as Lean lists; ObjectIds
and timestamps as natural numbers; Mongo operators ($addToSet, findOne,
findOneAndUpdate, countDocuments, deleteMany, sort) as the corresponding
list operations.  Functions keep the names of the controller functions
they embed.
-/

namespace Woodies

/-- User document (models/User.js), restricted to the fields the
group/message controllers consult. -/
structure UserDoc where
  id : Nat
  email : String
deriving DecidableEq

/-- One entry of a group's invitedUsers array (models/Group.js). -/
structure Invitation where
  user : Nat
  invitedBy : Nat
  status : String
deriving DecidableEq

/-- Group document (models/Group.js). -/
structure GroupDoc where
  id : Nat
  name : String
  description : String
  createdBy : Option Nat
  isPublic : Bool
  maxMembers : Nat
  invitedUsers : List Invitation
deriving DecidableEq

/-- GroupMember document (models/GroupMember.js): one membership row per
(user, group), with a role string, a join timestamp and a soft-delete
isActive flag. -/
structure MemberRow where
  user : Nat
  group : Nat
  role : String
  joinedAt : Nat
  isActive : Bool
deriving DecidableEq

/-- One entry of a message's readBy array (models/Message.js). -/
structure ReadReceipt where
  user : Nat
  readAt : Nat
deriving DecidableEq

/-- Message document (models/Message.js). -/
structure Msg where
  id : Nat
  content : String
  sender : Nat
  group : Nat
  messageType : String
  readBy : List ReadReceipt
  createdAt : Nat
deriving DecidableEq

/-- The document store: the four collections the controllers touch. -/
structure DB where
  users : List UserDoc
  groups : List GroupDoc
  members : List MemberRow
  messages : List Msg
deriving DecidableEq

/-- Mongo $addToSet on a message's readBy array: the element is appended
only when an element equal to the WHOLE subdocument {user, readAt} is not
already present (Mongo compares entire array elements, not just the user
field). -/
def addToSetReadBy (m : Msg) (u now : Nat) : Msg :=
  if m.readBy.any (fun r => r.user == u && r.readAt == now) then m
  else { m with readBy := m.readBy ++ [⟨u, now⟩] }

/-- markMessageAsRead (controllers/messageController.js, lines 77-90):
Message.findByIdAndUpdate(messageId, { $addToSet: { readBy: { user,
readAt: new Date() } } }).  The wall-clock new Date() is the explicit
`now` argument. -/
def markMessageAsRead (db : DB) (messageId u now : Nat) : DB :=
  { db with
    messages := db.messages.map fun m =>
      if m.id == messageId then addToSetReadBy m u now else m }

/-- Number of read receipts a message holds for a given user. -/
def receiptCountFor (m : Msg) (u : Nat) : Nat :=
  m.readBy.countP (fun r => r.user == u)

/-- Read receipts for user `u` on the message with id `mid`, summed over
the (at most one) matching message document. -/
def receiptsInDB (db : DB) (mid u : Nat) : Nat :=
  (db.messages.filter (fun m => m.id == mid)).foldr
    (fun m acc => receiptCountFor m u + acc) 0

/-- validateGroupMembership (messageController.js, lines 11-23):
GroupMember.findOne({ user, group, isActive: true }) must match. -/
def isActiveMember (db : DB) (u g : Nat) : Bool :=
  db.members.any (fun m => m.user == u && m.group == g && m.isActive)

/-- Whitespace as stripped by the JavaScript String.prototype.trim the
controller calls (ASCII whitespace; the claims only rely on the
empty-after-trim notion). -/
def isWhitespaceChar (c : Char) : Bool :=
  c == ' ' || c == '\t' || c == '\n' || c == '\r'

/-- JS String.prototype.trim over the character list: drop whitespace
from both ends. -/
def jsTrim (s : String) : String :=
  String.mk (((s.data.dropWhile isWhitespaceChar).reverse.dropWhile isWhitespaceChar).reverse)

/-- validateMessageContent (messageController.js, lines 26-36): reject
content that is empty after trim, or whose RAW length exceeds 1000; on
success the trimmed content is used. -/
def validateMessageContent (content : String) : Except String String :=
  if (jsTrim content).length == 0 then Except.error "Message content cannot be empty"
  else if content.length > 1000 then Except.error "Message cannot exceed 1000 characters"
  else Except.ok (jsTrim content)

/-- validateMessageType (messageController.js, lines 39-45). -/
def validTypes : List String := ["text", "image", "file", "system"]

/-- Outcome of the sendMessage controller, tagged by the HTTP status the
catch-all handler maps it to. -/
inductive SendResult where
  | invalidArg : SendResult
  | forbidden : SendResult
  | notFound : SendResult
  | created : Nat → SendResult
deriving DecidableEq

/-- sendMessage (messageController.js, lines 95-187): validate content,
validate type, check active membership (403 on failure), check the group
exists (404), then create the message and immediately self-mark it read
for the sender.  `newId` is the id Mongo assigns, `now` the wall clock. -/
def sendMessage (db : DB) (g sender : Nat) (content messageType : String)
    (newId now : Nat) : SendResult × DB :=
  match validateMessageContent content with
  | Except.error _ => (SendResult.invalidArg, db)
  | Except.ok validatedContent =>
    if !(validTypes.contains messageType) then (SendResult.invalidArg, db)
    else if !(isActiveMember db sender g) then (SendResult.forbidden, db)
    else
      match db.groups.find? (fun gr => gr.id == g) with
      | none => (SendResult.notFound, db)
      | some _ =>
        let m : Msg := ⟨newId, validatedContent, sender, g, messageType, [], now⟩
        let db1 : DB := { db with messages := db.messages ++ [m] }
        (SendResult.created newId, markMessageAsRead db1 newId sender now)

/-- getUnreadMessageCount core query (messageController.js, lines
262-304): Message.countDocuments({ group, readBy.user ≠ userId, sender ≠
userId }) behind the active-membership gate. -/
def getUnreadMessageCount (db : DB) (g u : Nat) : Except Unit Nat :=
  if !(isActiveMember db u g) then Except.error ()
  else Except.ok
    ((db.messages.filter (fun m =>
        m.group == g && !(m.readBy.any (fun r => r.user == u)) && !(m.sender == u))).length)

/-- Newest-first Mongo sort key used by getMessagesWithPagination:
.sort({ createdAt: -1 }). -/
def msgDesc (a b : Msg) : Prop := b.createdAt ≤ a.createdAt

instance : DecidableRel msgDesc := fun a b => Nat.decLe b.createdAt a.createdAt

instance : IsTotal Msg msgDesc :=
  ⟨fun a b => Nat.le_total b.createdAt a.createdAt⟩

instance : IsTrans Msg msgDesc :=
  ⟨fun _ _ _ h1 h2 => Nat.le_trans h2 h1⟩

/-- Pagination metadata returned by getMessagesWithPagination. -/
structure PageMeta where
  currentPage : Nat
  totalPages : Nat
  totalMessages : Nat
  hasNext : Bool
  hasPrev : Bool
deriving DecidableEq

/-- Exact Nat ceiling division, embedding Math.ceil(totalCount / limit). -/
def ceilDiv (n k : Nat) : Nat := (n + k - 1) / k

/-- getMessagesWithPagination (messageController.js, lines 48-74): skip
= (page-1)*limit over the newest-first sort, take `limit`, then reverse
to chronological order; metadata from the total count. -/
def getMessagesWithPagination (db : DB) (g page limit : Nat) :
    List Msg × PageMeta :=
  let groupMsgs := db.messages.filter (fun m => m.group == g)
  let skip := (page - 1) * limit
  let pageMsgs := ((groupMsgs.insertionSort msgDesc).drop skip).take limit
  let totalCount := groupMsgs.length
  (pageMsgs.reverse,
    ⟨page, ceilDiv totalCount limit, totalCount,
      decide (page < ceilDiv totalCount limit), decide (1 < page)⟩)

/-- Outcome of the getGroupMessages controller. -/
inductive MessagesResult where
  | invalidParams : MessagesResult
  | forbidden : MessagesResult
  | groupNotFound : MessagesResult
  | ok : List Msg → PageMeta → MessagesResult
deriving DecidableEq

/-- getGroupMessages (messageController.js, lines 192-257): validate
page/limit, check active membership, check the group exists, fetch the
page, then mark every fetched message read for the caller (at `now`). -/
def getGroupMessages (db : DB) (g caller page limit now : Nat) :
    MessagesResult × DB :=
  if page < 1 || limit < 1 || limit > 100 then (MessagesResult.invalidParams, db)
  else if !(isActiveMember db caller g) then (MessagesResult.forbidden, db)
  else
    match db.groups.find? (fun gr => gr.id == g) with
    | none => (MessagesResult.groupNotFound, db)
    | some _ =>
      let res := getMessagesWithPagination db g page limit
      (MessagesResult.ok res.1 res.2,
        res.1.foldl (fun acc m => markMessageAsRead acc m.id caller now) db)

/-- Lexicographic order on character lists, embedding the BSON string
comparison Mongo applies when sorting on a string field (byte order,
which agrees with codepoint order on the ASCII role names). -/
def strLtb : List Char → List Char → Bool
  | [], [] => false
  | [], _ :: _ => true
  | _ :: _, [] => false
  | a :: as, b :: bs => if a < b then true else if b < a then false else strLtb as bs

/-- BSON comparison of two role strings. -/
def roleLt (a b : String) : Bool := strLtb a.data b.data

/-- Mongo sort key of getGroupMembers: .sort({ role: -1, joinedAt: 1 }).
Role is a STRING sorted descending (BSON lexicographic order), then join
time ascending. -/
def memberOrder (a b : MemberRow) : Prop :=
  roleLt b.role a.role = true ∨ (a.role = b.role ∧ a.joinedAt ≤ b.joinedAt)

instance : DecidableRel memberOrder := fun x y =>
  inferInstanceAs (Decidable (roleLt y.role x.role = true ∨ (x.role = y.role ∧ x.joinedAt ≤ y.joinedAt)))

/-- Outcome of the getGroupMembers controller. -/
inductive MembersResult where
  | forbidden : MembersResult
  | ok : List MemberRow → MembersResult
deriving DecidableEq

/-- getGroupMembers (groupMemberController.js, lines 151-187): the
caller must hold an active membership; the listing is the active rows of
the group under the .sort({ role: -1, joinedAt: 1 }) order. -/
def getGroupMembers (db : DB) (g caller : Nat) : MembersResult :=
  if !(isActiveMember db caller g) then MembersResult.forbidden
  else MembersResult.ok
    ((db.members.filter (fun m => m.group == g && m.isActive)).insertionSort memberOrder)

/-- Update the first list element satisfying the predicate, embedding
Mongo findOneAndUpdate and the find-then-mutate idiom (a no-op when
nothing matches). -/
def updateFirst {α : Type} (p : α → Bool) (f : α → α) : List α → List α
  | [] => []
  | m :: rest => if p m then f m :: rest else m :: updateFirst p f rest

/-- Active admin-role membership rows of a group, embedding
GroupMember.countDocuments({ group, role: admin, isActive: true }). -/
def countActiveAdmins (db : DB) (g : Nat) : Nat :=
  (db.members.filter (fun m => m.group == g && m.role == "admin" && m.isActive)).length

/-- Outcome of the removeMember controller. -/
inductive RemoveResult where
  | notAdmin : RemoveResult
  | lastAdmin : RemoveResult
  | ok : RemoveResult
deriving DecidableEq

/-- removeMember (groupMemberController.js, lines 190-243): the caller
needs an admin-ROLE row (isActive is NOT consulted); the sole-admin
guard fires only when the target is the caller themself; the removal is
a soft delete flipping isActive on the (user, group) row. -/
def removeMember (db : DB) (g caller target : Nat) : RemoveResult × DB :=
  match db.members.find? (fun m => m.user == caller && m.group == g && m.role == "admin") with
  | none => (RemoveResult.notAdmin, db)
  | some _ =>
    if target == caller && countActiveAdmins db g == 1 then
      (RemoveResult.lastAdmin, db)
    else
      (RemoveResult.ok,
        { db with
          members := updateFirst (fun m => m.user == target && m.group == g)
            (fun m => { m with isActive := false }) db.members })

/-- Outcome of the inviteToGroup controller. -/
inductive InviteResult where
  | groupNotFound : InviteResult
  | notAdmin : InviteResult
  | userNotFound : InviteResult
  | alreadyMember : InviteResult
  | alreadyInvited : InviteResult
  | ok : InviteResult
deriving DecidableEq

/-- inviteToGroup (groupMemberController.js, lines 7-97): group lookup,
then an admin-ROLE row for the inviter (isActive NOT consulted), then
the invitee account by email, then conflict if ANY membership row for
the invitee exists (active or not), then conflict if ANY invitedUsers
entry for the invitee exists (whatever its status), else push a pending
invitation onto the group. -/
def inviteToGroup (db : DB) (g inviter : Nat) (email : String) : InviteResult × DB :=
  match db.groups.find? (fun gr => gr.id == g) with
  | none => (InviteResult.groupNotFound, db)
  | some gr =>
    match db.members.find? (fun m => m.user == inviter && m.group == g && m.role == "admin") with
    | none => (InviteResult.notAdmin, db)
    | some _ =>
      match db.users.find? (fun us => us.email == email) with
      | none => (InviteResult.userNotFound, db)
      | some invitee =>
        if db.members.any (fun m => m.user == invitee.id && m.group == g) then
          (InviteResult.alreadyMember, db)
        else if gr.invitedUsers.any (fun inv => inv.user == invitee.id) then
          (InviteResult.alreadyInvited, db)
        else
          (InviteResult.ok,
            { db with
              groups := db.groups.map fun g2 =>
                if g2.id == g then
                  { g2 with invitedUsers := g2.invitedUsers ++ [⟨invitee.id, inviter, "pending"⟩] }
                else g2 })

/-- GroupMember.create under the compound unique index {user: 1, group:
1} of models/GroupMember.js: the insert is rejected with a duplicate-key
error when ANY row for the (user, group) pair exists, whatever its
isActive flag. -/
def createMember (db : DB) (u g : Nat) (role : String) (now : Nat) : Except Unit DB :=
  if db.members.any (fun m => m.user == u && m.group == g) then Except.error ()
  else Except.ok { db with members := db.members ++ [⟨u, g, role, now, true⟩] }

/-- Outcome of the acceptInvitation controller. -/
inductive AcceptResult where
  | groupNotFound : AcceptResult
  | noInvitation : AcceptResult
  | dbError : AcceptResult
  | accepted : AcceptResult
deriving DecidableEq

/-- acceptInvitation (groupMemberController.js, lines 100-148): needs a
pending invitedUsers entry; GroupMember.create runs BEFORE the status
flip, and a duplicate-key rejection aborts the request (caught as 500)
with the invitation left pending. -/
def acceptInvitation (db : DB) (g u now : Nat) : AcceptResult × DB :=
  match db.groups.find? (fun gr => gr.id == g) with
  | none => (AcceptResult.groupNotFound, db)
  | some gr =>
    if gr.invitedUsers.any (fun inv => inv.user == u && inv.status == "pending") then
      match createMember db u g "member" now with
      | Except.error _ => (AcceptResult.dbError, db)
      | Except.ok db1 =>
        (AcceptResult.accepted,
          { db1 with
            groups := db1.groups.map fun g2 =>
              if g2.id == g then
                { g2 with
                  invitedUsers := updateFirst
                    (fun inv => inv.user == u && inv.status == "pending")
                    (fun inv => { inv with status := "accepted" }) g2.invitedUsers }
              else g2 })
    else (AcceptResult.noInvitation, db)

/-- Membership half of getMainChat: GroupMember.findOne({ user, group })
with NO isActive filter, creating an active member row only when no row
at all exists. -/
def ensureMember (db : DB) (gid u now : Nat) : DB :=
  match db.members.find? (fun m => m.user == u && m.group == gid) with
  | some _ => db
  | none => { db with members := db.members ++ [⟨u, gid, "member", now, true⟩] }

/-- getMainChat (groupController.js, lines 464-509): find or create the
group named "Main Chat", then ensure the caller has SOME membership row
in it.  `newGroupId` is the id Mongo would assign on creation. -/
def getMainChat (db : DB) (u newGroupId now : Nat) : DB :=
  match db.groups.find? (fun gr => gr.name == "Main Chat") with
  | some mc => ensureMember db mc.id u now
  | none =>
    let mc : GroupDoc :=
      ⟨newGroupId, "Main Chat", "Welcome to the main chat room!", some u, true, 1000, []⟩
    ensureMember { db with groups := db.groups ++ [mc] } newGroupId u now

/-- Outcome of the deleteGroup controller. -/
inductive DeleteResult where
  | notFound : DeleteResult
  | notAdmin : DeleteResult
  | mainChat : DeleteResult
  | ok : DeleteResult
deriving DecidableEq

/-- deleteGroup (groupController.js, lines 639-697): group lookup, an
admin-ROLE row for the caller, refusal when the group is named "Main
Chat", else cascade deleteMany of the group's messages and memberships
together with the group document. -/
def deleteGroup (db : DB) (g caller : Nat) : DeleteResult × DB :=
  match db.groups.find? (fun gr => gr.id == g) with
  | none => (DeleteResult.notFound, db)
  | some gr =>
    match db.members.find? (fun m => m.user == caller && m.group == g && m.role == "admin") with
    | none => (DeleteResult.notAdmin, db)
    | some _ =>
      if gr.name == "Main Chat" then (DeleteResult.mainChat, db)
      else
        (DeleteResult.ok,
          { db with
            groups := db.groups.filter (fun g2 => !(g2.id == g))
            members := db.members.filter (fun m => !(m.group == g))
            messages := db.messages.filter (fun m => !(m.group == g)) })

/-- A concrete store for the C2 experiment: one group, two users, one
message with an empty readBy array. -/
def dbC2 : DB :=
  { users := [⟨1, "a@x.com"⟩, ⟨2, "b@x.com"⟩]
    groups := [⟨1, "General Chat", "", none, true, 1000, []⟩]
    members := [⟨1, 1, "member", 0, true⟩, ⟨2, 1, "member", 0, true⟩]
    messages := [⟨7, "hi", 1, 1, "text", [], 0⟩] }

/-- Claim C2 (code_bug).  markRead is NOT idempotent per user: Mongo
$addToSet deduplicates on the entire {user, readAt} subdocument, and each
call supplies a fresh new Date().  Two markMessageAsRead calls for the
same (message 7, user 2) at distinct instants 0 and 1 leave TWO read
receipts for user 2 on message 7, where the claim requires exactly one;
only a second call at the identical instant is a no-op. -/
theorem markMessageAsRead_duplicates_receipts :
    receiptsInDB (markMessageAsRead (markMessageAsRead dbC2 7 2 0) 7 2 1) 7 2 = 2 ∧
    receiptsInDB (markMessageAsRead (markMessageAsRead dbC2 7 2 0) 7 2 0) 7 2 = 1 := by
  constructor <;> rfl

/-- A store whose group 5 starts with two ACTIVE admins, users 1 and 2. -/
def dbC1 : DB :=
  { users := [⟨1, "a@x.com"⟩, ⟨2, "b@x.com"⟩]
    groups := [⟨5, "Team", "", some 1, false, 50, []⟩]
    members := [⟨1, 5, "admin", 0, true⟩, ⟨2, 5, "admin", 1, true⟩]
    messages := [] }

/-- Claim C1 (counterexample).  Starting from a group with two active
admins, admin 1 removes admin 2 (allowed), after which user 1 is the sole
active admin; then user 2 — whose admin-role row is now inactive but
still passes the role check — removes user 1.  The target of that second
call is the group's sole active admin, yet the call succeeds and the
active-admin count drops to 0: the sole-admin guard only fires on
self-removal. -/
theorem removeMember_removes_sole_active_admin :
    countActiveAdmins dbC1 5 = 2 ∧
    (removeMember dbC1 5 1 2).1 = RemoveResult.ok ∧
    countActiveAdmins (removeMember dbC1 5 1 2).2 5 = 1 ∧
    isActiveMember (removeMember dbC1 5 1 2).2 1 5 = true ∧
    (removeMember (removeMember dbC1 5 1 2).2 5 2 1).1 = RemoveResult.ok ∧
    countActiveAdmins (removeMember (removeMember dbC1 5 1 2).2 5 2 1).2 5 = 0 := by
  refine ⟨rfl, rfl, rfl, rfl, rfl, rfl⟩

/-- Claim C1 (amended).  The sole-admin floor is enforced exactly for
self-removal: when the caller holds an admin-role row for the group,
targets themself, and the group's active-admin count is 1, removeMember
fails and leaves the store untouched. -/
theorem removeMember_rejects_last_admin_self_removal (db : DB) (g caller : Nat)
    (hadm : (db.members.find?
      (fun m => m.user == caller && m.group == g && m.role == "admin")).isSome = true)
    (hone : countActiveAdmins db g = 1) :
    removeMember db g caller caller = (RemoveResult.lastAdmin, db) := by
  obtain ⟨r, hr⟩ := Option.isSome_iff_exists.mp hadm
  simp [removeMember, hr, hone]

/-- A store whose group 5 has a single active admin, user 1. -/
def dbC1w : DB :=
  { users := [⟨1, "a@x.com"⟩]
    groups := [⟨5, "Team", "", some 1, false, 50, []⟩]
    members := [⟨1, 5, "admin", 0, true⟩]
    messages := [] }

/-- Witness for the amended C1 theorem at a concrete store. -/
theorem removeMember_rejects_last_admin_self_removal_app :
    (dbC1w.members.find?
      (fun m => m.user == 1 && m.group == 5 && m.role == "admin")).isSome = true ∧
    countActiveAdmins dbC1w 5 = 1 ∧
    removeMember dbC1w 5 1 1 = (RemoveResult.lastAdmin, dbC1w) :=
  ⟨by decide, by decide,
    removeMember_rejects_last_admin_self_removal dbC1w 5 1 (by decide) (by decide)⟩

/-- A store whose group 1 has an active admin (user 1, joined at 0) and
an active plain member (user 2, joined at 1). -/
def dbC6 : DB :=
  { users := [⟨1, "a@x.com"⟩, ⟨2, "b@x.com"⟩]
    groups := [⟨1, "Team", "", some 1, false, 50, []⟩]
    members := [⟨1, 1, "admin", 0, true⟩, ⟨2, 1, "member", 1, true⟩]
    messages := [] }

/-- Claim C6 (code_bug).  The listing sorts on the role STRING
descending: lexicographically "moderator" > "member" > "admin", so the
admin row comes LAST, although the code's own comment (and the spec)
promise admins first.  On a group holding an admin and a member, the
member is listed before the admin. -/
theorem getGroupMembers_orders_admins_last :
    getGroupMembers dbC6 1 1 =
      MembersResult.ok [⟨2, 1, "member", 1, true⟩, ⟨1, 1, "admin", 0, true⟩] := by
  decide

/-- A store where user 1 holds an INACTIVE admin-role row for private
group 1, and user 2 exists with no membership and no invitation. -/
def dbC7 : DB :=
  { users := [⟨1, "a@x.com"⟩, ⟨2, "b@x.com"⟩]
    groups := [⟨1, "Priv", "", some 1, false, 50, []⟩]
    members := [⟨1, 1, "admin", 0, false⟩]
    messages := [] }

/-- Claim C7 (counterexample).  User 1 is NOT an active admin of group 1
(the only admin-role row is inactive), yet inviteToGroup succeeds and
appends the invitation instead of failing Forbidden: the inviter check
never consults isActive. -/
theorem inviteToGroup_allows_inactive_admin :
    (inviteToGroup dbC7 1 1 "b@x.com").1 = InviteResult.ok ∧
    dbC7.members.any
      (fun m => m.user == 1 && m.group == 1 && m.role == "admin" && m.isActive) = false := by
  refine ⟨rfl, rfl⟩

/-- The admin-role lookup of inviteToGroup / removeMember / deleteGroup
matches exactly the admin-role rows, active or not. -/
theorem adminRow_find_iff (db : DB) (g u : Nat) :
    (db.members.find?
      (fun m => m.user == u && m.group == g && m.role == "admin")).isSome = true ↔
    ∃ m ∈ db.members, m.user = u ∧ m.group = g ∧ m.role = "admin" := by
  rw [List.find?_isSome]
  simp [and_assoc]

/-- Claim C7 (amended).  With the group found: the invite fails Forbidden
exactly when the inviter holds NO admin-role row for the group (an
inactive admin row passes); then NotFound when no account matches the
email; then Conflict when the invitee has ANY membership row (active or
inactive) or ANY invitedUsers entry (whatever its status); only otherwise
does it append a pending invitation, touching no membership row. -/
theorem inviteToGroup_behavior (db : DB) (g inviter : Nat) (email : String)
    (gr : GroupDoc) (hg : db.groups.find? (fun g2 => g2.id == g) = some gr) :
    ((¬ ∃ m ∈ db.members, m.user = inviter ∧ m.group = g ∧ m.role = "admin") →
      inviteToGroup db g inviter email = (InviteResult.notAdmin, db)) ∧
    ((∃ m ∈ db.members, m.user = inviter ∧ m.group = g ∧ m.role = "admin") →
      ((¬ ∃ us ∈ db.users, us.email = email) →
        inviteToGroup db g inviter email = (InviteResult.userNotFound, db)) ∧
      (∀ invitee, db.users.find? (fun us => us.email == email) = some invitee →
        ((∃ m ∈ db.members, m.user = invitee.id ∧ m.group = g) →
          inviteToGroup db g inviter email = (InviteResult.alreadyMember, db)) ∧
        ((¬ ∃ m ∈ db.members, m.user = invitee.id ∧ m.group = g) →
          (∃ inv ∈ gr.invitedUsers, inv.user = invitee.id) →
          inviteToGroup db g inviter email = (InviteResult.alreadyInvited, db)) ∧
        ((¬ ∃ m ∈ db.members, m.user = invitee.id ∧ m.group = g) →
          (¬ ∃ inv ∈ gr.invitedUsers, inv.user = invitee.id) →
          (inviteToGroup db g inviter email).1 = InviteResult.ok ∧
          (inviteToGroup db g inviter email).2.members = db.members ∧
          ∃ g2 ∈ (inviteToGroup db g inviter email).2.groups,
            (⟨invitee.id, inviter, "pending"⟩ : Invitation) ∈ g2.invitedUsers))) := by
  constructor
  · intro hno
    cases hfind : db.members.find?
        (fun m => m.user == inviter && m.group == g && m.role == "admin") with
    | none => simp [inviteToGroup, hg, hfind]
    | some r =>
      exact absurd ((adminRow_find_iff db g inviter).mp (by rw [hfind]; rfl)) hno
  · intro hyes
    obtain ⟨r, hr⟩ := Option.isSome_iff_exists.mp ((adminRow_find_iff db g inviter).mpr hyes)
    constructor
    · intro hnouser
      cases hu : db.users.find? (fun us => us.email == email) with
      | none => simp [inviteToGroup, hg, hr, hu]
      | some us =>
        refine absurd ⟨us, List.mem_of_find?_eq_some hu, ?_⟩ hnouser
        have := List.find?_some hu
        simpa using this
    · intro invitee hu
      have hmem_iff : db.members.any (fun m => m.user == invitee.id && m.group == g) = true ↔
          ∃ m ∈ db.members, m.user = invitee.id ∧ m.group = g := by
        rw [List.any_eq_true]; simp
      have hinv_iff : gr.invitedUsers.any (fun inv => inv.user == invitee.id) = true ↔
          ∃ inv ∈ gr.invitedUsers, inv.user = invitee.id := by
        rw [List.any_eq_true]; simp
      refine ⟨?_, ?_, ?_⟩
      · intro hex
        simp [inviteToGroup, hg, hr, hu, hmem_iff.mpr hex]
      · intro hnomem hex
        have h1 : db.members.any (fun m => m.user == invitee.id && m.group == g) = false := by
          cases h : db.members.any (fun m => m.user == invitee.id && m.group == g) with
          | false => rfl
          | true => exact absurd (hmem_iff.mp h) hnomem
        simp [inviteToGroup, hg, hr, hu, h1, hinv_iff.mpr hex]
      · intro hnomem hnoinv
        have h1 : db.members.any (fun m => m.user == invitee.id && m.group == g) = false := by
          cases h : db.members.any (fun m => m.user == invitee.id && m.group == g) with
          | false => rfl
          | true => exact absurd (hmem_iff.mp h) hnomem
        have h2 : gr.invitedUsers.any (fun inv => inv.user == invitee.id) = false := by
          cases h : gr.invitedUsers.any (fun inv => inv.user == invitee.id) with
          | false => rfl
          | true => exact absurd (hinv_iff.mp h) hnoinv
        refine ⟨by simp [inviteToGroup, hg, hr, hu, h1, h2], by simp [inviteToGroup, hg, hr, hu, h1, h2], ?_⟩
        have hgrid : (gr.id == g) = true := by simpa using List.find?_some hg
        have hgr_mem : gr ∈ db.groups := List.mem_of_find?_eq_some hg
        refine ⟨{ gr with invitedUsers := gr.invitedUsers ++ [⟨invitee.id, inviter, "pending"⟩] }, ?_, ?_⟩
        · simp only [inviteToGroup, hg, hr, hu, h1, h2]
          simp only [Bool.false_eq_true, if_false]
          have := List.mem_map_of_mem
            (fun g2 => if g2.id == g then
              { g2 with invitedUsers := g2.invitedUsers ++ [⟨invitee.id, inviter, "pending"⟩] }
              else g2) hgr_mem
          simpa [hgrid] using this
        · exact List.mem_append_right _ (List.mem_singleton_self _)

/-- Witness for the amended C7 theorem: on dbC7 (inactive admin row for
the inviter) the invite still goes through and appends a pending entry. -/
theorem inviteToGroup_behavior_app :
    dbC7.groups.find? (fun g2 => g2.id == 1) = some ⟨1, "Priv", "", some 1, false, 50, []⟩ ∧
    (∃ m ∈ dbC7.members, m.user = 1 ∧ m.group = 1 ∧ m.role = "admin") ∧
    (inviteToGroup dbC7 1 1 "b@x.com").1 = InviteResult.ok ∧
    (inviteToGroup dbC7 1 1 "b@x.com").2.members = dbC7.members ∧
    ∃ g2 ∈ (inviteToGroup dbC7 1 1 "b@x.com").2.groups,
      (⟨2, 1, "pending"⟩ : Invitation) ∈ g2.invitedUsers := by
  refine ⟨by decide, ⟨⟨1, 1, "admin", 0, false⟩, by decide, by decide, by decide, by decide⟩, ?_⟩
  exact ((inviteToGroup_behavior dbC7 1 1 "b@x.com" ⟨1, "Priv", "", some 1, false, 50, []⟩
      (by decide)).2 ⟨⟨1, 1, "admin", 0, false⟩, by decide, by decide, by decide, by decide⟩).2
    ⟨2, "b@x.com"⟩ (by decide) |>.2.2 (by decide) (by decide)

/-- A store where the "Main Chat" group (id 0) exists and user 1 holds
an INACTIVE membership row in it (user 1 was removed earlier). -/
def dbC8 : DB :=
  { users := [⟨1, "a@x.com"⟩]
    groups := [⟨0, "Main Chat", "Welcome to the main chat room!", none, true, 1000, []⟩]
    members := [⟨1, 0, "member", 3, false⟩]
    messages := [] }

/-- Claim C8 (counterexample).  The membership probe of getMainChat uses
GroupMember.findOne({ user, group }) with no isActive filter, so for a
user whose only Main Chat row is inactive the call is a no-op: after the
call the user still holds NO active Main Chat membership, although the
claim promises one. -/
theorem getMainChat_skips_inactive_row :
    getMainChat dbC8 1 9 9 = dbC8 ∧ isActiveMember dbC8 1 0 = false := by
  refine ⟨rfl, rfl⟩

/-- Claim C8 (amended).  getMainChat guarantees a Main Chat group and
SOME membership row for the caller in it — freshly created rows are
active, but a pre-existing inactive row is left inactive — and the call
is idempotent: a second call changes nothing, so no second row ever
appears. -/
theorem getMainChat_ensures_row_idempotent (db : DB) (u nid now n2 t2 : Nat) :
    (∃ mc, (getMainChat db u nid now).groups.find? (fun gr => gr.name == "Main Chat") = some mc ∧
      ∃ row ∈ (getMainChat db u nid now).members,
        row.user = u ∧ row.group = mc.id ∧ (row ∉ db.members → row.isActive = true)) ∧
    getMainChat (getMainChat db u nid now) u n2 t2 = getMainChat db u nid now := by
  cases hg : db.groups.find? (fun gr => gr.name == "Main Chat") with
  | some mc =>
    cases hm : db.members.find? (fun m => m.user == u && m.group == mc.id) with
    | some r =>
      have hdb : getMainChat db u nid now = db := by
        simp [getMainChat, hg, ensureMember, hm]
      rw [hdb]
      refine ⟨⟨mc, hg, r, List.mem_of_find?_eq_some hm, ?_, ?_, ?_⟩, ?_⟩
      · have := List.find?_some hm
        simp only [Bool.and_eq_true, beq_iff_eq] at this
        exact this.1
      · have := List.find?_some hm
        simp only [Bool.and_eq_true, beq_iff_eq] at this
        exact this.2
      · intro hnotin
        exact absurd (List.mem_of_find?_eq_some hm) hnotin
      · simp [getMainChat, hg, ensureMember, hm]
    | none =>
      have hdb : getMainChat db u nid now =
          { db with members := db.members ++ [⟨u, mc.id, "member", now, true⟩] } := by
        simp [getMainChat, hg, ensureMember, hm]
      rw [hdb]
      refine ⟨⟨mc, hg, ⟨u, mc.id, "member", now, true⟩,
        List.mem_append_right _ (List.mem_singleton_self _), rfl, rfl, fun _ => rfl⟩, ?_⟩
      have hfind2 : (db.members ++ [(⟨u, mc.id, "member", now, true⟩ : MemberRow)]).find?
          (fun m => m.user == u && m.group == mc.id) =
          some ⟨u, mc.id, "member", now, true⟩ := by
        rw [List.find?_append, hm]
        simp
      simp [getMainChat, hg, ensureMember, hfind2]
  | none =>
    have hg2 : ∀ ms : List MemberRow,
        (DB.mk db.users (db.groups ++
            [⟨nid, "Main Chat", "Welcome to the main chat room!", some u, true, 1000, []⟩])
          ms db.messages).groups.find? (fun gr => gr.name == "Main Chat") =
        some ⟨nid, "Main Chat", "Welcome to the main chat room!", some u, true, 1000, []⟩ := by
      intro ms
      show (db.groups ++ [_]).find? _ = _
      rw [List.find?_append, hg]
      simp
    cases hm : db.members.find? (fun m => m.user == u && m.group == nid) with
    | some r =>
      have hdb : getMainChat db u nid now =
          { db with groups := db.groups ++
              [⟨nid, "Main Chat", "Welcome to the main chat room!", some u, true, 1000, []⟩] } := by
        simp [getMainChat, hg, ensureMember, hm]
      rw [hdb]
      refine ⟨⟨⟨nid, "Main Chat", "Welcome to the main chat room!", some u, true, 1000, []⟩,
        hg2 db.members, r, List.mem_of_find?_eq_some hm, ?_, ?_, ?_⟩, ?_⟩
      · have := List.find?_some hm
        simp only [Bool.and_eq_true, beq_iff_eq] at this
        exact this.1
      · have := List.find?_some hm
        simp only [Bool.and_eq_true, beq_iff_eq] at this
        exact this.2
      · intro hnotin
        exact absurd (List.mem_of_find?_eq_some hm) hnotin
      · simp [getMainChat, hg2 db.members, ensureMember, hm]
    | none =>
      have hdb : getMainChat db u nid now =
          { db with
            groups := db.groups ++
              [⟨nid, "Main Chat", "Welcome to the main chat room!", some u, true, 1000, []⟩]
            members := db.members ++ [⟨u, nid, "member", now, true⟩] } := by
        simp [getMainChat, hg, ensureMember, hm]
      rw [hdb]
      refine ⟨⟨⟨nid, "Main Chat", "Welcome to the main chat room!", some u, true, 1000, []⟩,
        hg2 _, ⟨u, nid, "member", now, true⟩,
        List.mem_append_right _ (List.mem_singleton_self _), rfl, rfl, fun _ => rfl⟩, ?_⟩
      have hfind2 : (db.members ++ [(⟨u, nid, "member", now, true⟩ : MemberRow)]).find?
          (fun m => m.user == u && m.group == nid) =
          some ⟨u, nid, "member", now, true⟩ := by
        rw [List.find?_append, hm]
        simp
      simp [getMainChat, ensureMember, List.find?_append, hg, hm]

/-- Witness for the amended C8 theorem: a fresh user joining an empty
store gets an active Main Chat row and a second call changes nothing. -/
theorem getMainChat_ensures_row_idempotent_app :
    (∃ mc, (getMainChat ⟨[⟨1, "a@x.com"⟩], [], [], []⟩ 1 0 4).groups.find?
        (fun gr => gr.name == "Main Chat") = some mc ∧
      ∃ row ∈ (getMainChat ⟨[⟨1, "a@x.com"⟩], [], [], []⟩ 1 0 4).members,
        row.user = 1 ∧ row.group = mc.id ∧
          (row ∉ (⟨[⟨1, "a@x.com"⟩], [], [], []⟩ : DB).members → row.isActive = true)) ∧
    getMainChat (getMainChat ⟨[⟨1, "a@x.com"⟩], [], [], []⟩ 1 0 4) 1 7 8 =
      getMainChat ⟨[⟨1, "a@x.com"⟩], [], [], []⟩ 1 0 4 :=
  getMainChat_ensures_row_idempotent ⟨[⟨1, "a@x.com"⟩], [], [], []⟩ 1 0 4 7 8

/-- A store with deletable group 1 (admin user 1, member user 2, one
message). -/
def dbC9 : DB :=
  { users := [⟨1, "a@x.com"⟩, ⟨2, "b@x.com"⟩]
    groups := [⟨1, "Team", "", some 1, false, 50, []⟩]
    members := [⟨1, 1, "admin", 0, true⟩, ⟨2, 1, "member", 1, true⟩]
    messages := [⟨7, "hi", 1, 1, "text", [], 0⟩] }

/-- Claim C9 (counterexample).  After a successful deleteGroup the member
listing for that id does NOT "report empty or not-found": with every
membership row cascaded away no caller passes the membership gate, so
getGroupMembers reports the not-a-member Forbidden error — even for the
admin who deleted the group — and never an empty listing. -/
theorem deleteGroup_then_members_forbidden :
    (deleteGroup dbC9 1 1).1 = DeleteResult.ok ∧
    getGroupMembers (deleteGroup dbC9 1 1).2 1 1 = MembersResult.forbidden ∧
    MembersResult.forbidden ≠ MembersResult.ok [] := by
  refine ⟨rfl, rfl, by decide⟩

/-- Claim C9 (amended).  deleteGroup refuses whenever the target group is
named "Main Chat", leaving the store untouched; a successful delete
leaves no message document and no membership row referencing the group
id, so both the member listing and the message listing for that id
subsequently fail with the not-a-member Forbidden error for every caller
(never returning stale data). -/
theorem deleteGroup_cascade (db : DB) (g caller : Nat) :
    (∀ gr, db.groups.find? (fun g2 => g2.id == g) = some gr → gr.name = "Main Chat" →
      (deleteGroup db g caller).1 ≠ DeleteResult.ok ∧ (deleteGroup db g caller).2 = db) ∧
    ((deleteGroup db g caller).1 = DeleteResult.ok →
      (deleteGroup db g caller).2.messages.filter (fun m => m.group == g) = [] ∧
      (deleteGroup db g caller).2.members.filter (fun m => m.group == g) = [] ∧
      (∀ c, getGroupMembers (deleteGroup db g caller).2 g c = MembersResult.forbidden) ∧
      (∀ c page limit now,
        (getGroupMessages (deleteGroup db g caller).2 g c page limit now).1 =
            MessagesResult.invalidParams ∨
        (getGroupMessages (deleteGroup db g caller).2 g c page limit now).1 =
            MessagesResult.forbidden)) := by
  constructor
  · intro gr hg hname
    cases hr : db.members.find?
        (fun m => m.user == caller && m.group == g && m.role == "admin") with
    | none => simp [deleteGroup, hg, hr]
    | some r =>
      have hb : (gr.name == "Main Chat") = true := by
        simp [hname]
      simp [deleteGroup, hg, hr, hb]
  · intro hok
    cases hg : db.groups.find? (fun g2 => g2.id == g) with
    | none => simp [deleteGroup, hg] at hok
    | some gr =>
      cases hr : db.members.find?
          (fun m => m.user == caller && m.group == g && m.role == "admin") with
      | none => simp [deleteGroup, hg, hr] at hok
      | some r =>
        cases hb : (gr.name == "Main Chat") with
        | true => simp [deleteGroup, hg, hr, hb] at hok
        | false =>
          have hsnd : (deleteGroup db g caller).2 =
              { db with
                groups := db.groups.filter (fun g2 => !(g2.id == g))
                members := db.members.filter (fun m => !(m.group == g))
                messages := db.messages.filter (fun m => !(m.group == g)) } := by
            simp [deleteGroup, hg, hr, hb]
          rw [hsnd]
          have hmemact : ∀ c : Nat, isActiveMember
              { db with
                groups := db.groups.filter (fun g2 => !(g2.id == g))
                members := db.members.filter (fun m => !(m.group == g))
                messages := db.messages.filter (fun m => !(m.group == g)) } c g = false := by
            intro c
            rw [isActiveMember, List.any_eq_false]
            intro m hm
            have := (List.mem_filter.mp hm).2
            simp only [Bool.not_eq_true'] at this
            simp [this]
          refine ⟨?_, ?_, ?_, ?_⟩
          · rw [List.filter_eq_nil_iff]
            intro m hm
            have := (List.mem_filter.mp hm).2
            simp only [Bool.not_eq_true'] at this
            simp [this]
          · rw [List.filter_eq_nil_iff]
            intro m hm
            have := (List.mem_filter.mp hm).2
            simp only [Bool.not_eq_true'] at this
            simp [this]
          · intro c
            simp [getGroupMembers, hmemact c]
          · intro c page limit now
            cases hp : (page < 1 || limit < 1 || limit > 100 : Bool) with
            | true =>
              left
              simp only [getGroupMessages, hp]
              rfl
            | false =>
              right
              simp only [getGroupMessages, hp]
              simp [hmemact c]

/-- Witness for the amended C9 theorem on the concrete store dbC9. -/
theorem deleteGroup_cascade_app :
    (deleteGroup dbC9 1 1).1 = DeleteResult.ok ∧
    (deleteGroup dbC9 1 1).2.messages.filter (fun m => m.group == 1) = [] ∧
    (deleteGroup dbC9 1 1).2.members.filter (fun m => m.group == 1) = [] ∧
    getGroupMembers (deleteGroup dbC9 1 1).2 1 2 = MembersResult.forbidden := by
  have h := (deleteGroup_cascade dbC9 1 1).2 (by decide)
  exact ⟨by decide, h.1, h.2.1, h.2.2.1 2⟩

/-- Projection of a membership row onto its non-soft-delete fields. -/
def rowCore (m : MemberRow) : Nat × Nat × String × Nat :=
  (m.user, m.group, m.role, m.joinedAt)

/-- updateFirst with a flag-only update preserves every row's core
fields: nothing is ever deleted, only isActive may change. -/
theorem updateFirst_map_rowCore (p : MemberRow → Bool) (l : List MemberRow) :
    (updateFirst p (fun m => { m with isActive := false }) l).map rowCore =
      l.map rowCore := by
  induction l with
  | nil => rfl
  | cons m rest ih =>
    by_cases h : p m
    · simp [updateFirst, h, rowCore]
    · simp [updateFirst, h, ih]

/-- Claim C10.  The membership store's compound unique index covers the
(user, group) pair regardless of isActive; removeMember only flips the
flag (all core fields survive); hence when any row — in particular an
inactive one — exists for (u, g), the GroupMember.create inside
acceptInvitation is rejected and the request fails without ever adding a
second row. -/
theorem membership_uniqueness_soft_delete (db : DB) (g caller target u gid now : Nat)
    (role : String) :
    ((removeMember db g caller target).2.members.map rowCore = db.members.map rowCore) ∧
    ((∃ m ∈ db.members, m.user = u ∧ m.group = gid) →
      createMember db u gid role now = Except.error ()) ∧
    ((∃ m ∈ db.members, m.user = u ∧ m.group = gid) →
      (acceptInvitation db gid u now).1 ≠ AcceptResult.accepted ∧
      (acceptInvitation db gid u now).2.members = db.members) := by
  have hdup : (∃ m ∈ db.members, m.user = u ∧ m.group = gid) →
      createMember db u gid role now = Except.error () := by
    intro hex
    have : db.members.any (fun m => m.user == u && m.group == gid) = true := by
      rw [List.any_eq_true]
      simpa using hex
    simp [createMember, this]
  refine ⟨?_, hdup, ?_⟩
  · cases hr : db.members.find?
        (fun m => m.user == caller && m.group == g && m.role == "admin") with
    | none => simp [removeMember, hr]
    | some r =>
      by_cases hguard : target == caller && countActiveAdmins db g == 1
      · simp [removeMember, hr, hguard]
      · simp [removeMember, hr, hguard, updateFirst_map_rowCore]
  · intro hex
    have hcreate : db.members.any (fun m => m.user == u && m.group == gid) = true := by
      rw [List.any_eq_true]
      simpa using hex
    cases hg : db.groups.find? (fun gr => gr.id == gid) with
    | none => simp [acceptInvitation, hg]
    | some gr =>
      by_cases hp : gr.invitedUsers.any (fun inv => inv.user == u && inv.status == "pending")
      · simp [acceptInvitation, hg, hp, createMember, hcreate]
      · simp [acceptInvitation, hg, hp]

/-- A store for the C10 witness: user 2 holds an inactive row in group 1
and a pending invitation to it. -/
def dbC10 : DB :=
  { users := [⟨1, "a@x.com"⟩, ⟨2, "b@x.com"⟩]
    groups := [⟨1, "Priv", "", some 1, false, 50, [⟨2, 1, "pending"⟩]⟩]
    members := [⟨1, 1, "admin", 0, true⟩, ⟨2, 1, "member", 1, false⟩]
    messages := [] }

/-- Witness for the C10 theorem: the previously removed user 2 cannot
re-enter group 1 through acceptInvitation; the insert is rejected and no
row is added. -/
theorem membership_uniqueness_soft_delete_app :
    (∃ m ∈ dbC10.members, m.user = 2 ∧ m.group = 1) ∧
    createMember dbC10 2 1 "member" 9 = Except.error () ∧
    (acceptInvitation dbC10 1 2 9).1 ≠ AcceptResult.accepted ∧
    (acceptInvitation dbC10 1 2 9).2.members = dbC10.members := by
  have hex : ∃ m ∈ dbC10.members, m.user = 2 ∧ m.group = 1 :=
    ⟨⟨2, 1, "member", 1, false⟩, by decide, rfl, rfl⟩
  have h := membership_uniqueness_soft_delete dbC10 1 1 2 2 1 9 "member"
  exact ⟨hex, h.2.1 hex, (h.2.2 hex).1, (h.2.2 hex).2⟩

/-- Claim C4.  sendMessage validates content and type before consulting
membership or group existence: any validation failure yields
InvalidArgument with the store untouched (even for a non-member and a
missing group); with valid input, a caller without an active membership
yields Forbidden; with valid input and an active member, a missing group
yields NotFound — in each failure case no message document is
persisted. -/
theorem sendMessage_error_taxonomy (db : DB) (g sender : Nat)
    (content messageType : String) (newId now : Nat) :
    (((∃ e, validateMessageContent content = Except.error e) ∨
        validTypes.contains messageType = false) →
      sendMessage db g sender content messageType newId now = (SendResult.invalidArg, db)) ∧
    (∀ c, validateMessageContent content = Except.ok c →
      validTypes.contains messageType = true →
      isActiveMember db sender g = false →
      sendMessage db g sender content messageType newId now = (SendResult.forbidden, db)) ∧
    (∀ c, validateMessageContent content = Except.ok c →
      validTypes.contains messageType = true →
      isActiveMember db sender g = true →
      db.groups.find? (fun gr => gr.id == g) = none →
      sendMessage db g sender content messageType newId now = (SendResult.notFound, db)) := by
  refine ⟨?_, ?_, ?_⟩
  · rintro (⟨e, he⟩ | hty)
    · simp [sendMessage, he]
    · have hty2 : messageType ∉ validTypes := by simpa using hty
      cases hv : validateMessageContent content with
      | error e => simp [sendMessage, hv]
      | ok c => simp [sendMessage, hv, hty2]
  · intro c hv hty hmem
    have hty2 : messageType ∈ validTypes := by simpa using hty
    simp [sendMessage, hv, hty2, hmem]
  · intro c hv hty hmem hgrp
    have hty2 : messageType ∈ validTypes := by simpa using hty
    simp [sendMessage, hv, hty2, hmem, hgrp]

/-- A store for the C4 witness: user 1 is an active member of group 1
and holds a stale membership row for the nonexistent group 2; user 2 is
a member of nothing. -/
def dbC4 : DB :=
  { users := [⟨1, "a@x.com"⟩, ⟨2, "b@x.com"⟩]
    groups := [⟨1, "Team", "", some 1, true, 50, []⟩]
    members := [⟨1, 1, "member", 0, true⟩, ⟨1, 2, "member", 0, true⟩]
    messages := [] }

/-- Witness for the C4 theorem: empty content from a NON-member still
reports InvalidArgument (validation precedes membership), a valid send
by a non-member reports Forbidden, and a valid send by a member of the
missing group 2 reports NotFound; the store is unchanged each time. -/
theorem sendMessage_error_taxonomy_app :
    sendMessage dbC4 1 2 "   " "text" 9 9 = (SendResult.invalidArg, dbC4) ∧
    sendMessage dbC4 1 2 "hi" "text" 9 9 = (SendResult.forbidden, dbC4) ∧
    sendMessage dbC4 2 1 "hi" "text" 9 9 = (SendResult.notFound, dbC4) :=
  ⟨(sendMessage_error_taxonomy dbC4 1 2 "   " "text" 9 9).1
      (Or.inl ⟨"Message content cannot be empty", rfl⟩),
    (sendMessage_error_taxonomy dbC4 1 2 "hi" "text" 9 9).2.1 "hi" rfl rfl rfl,
    (sendMessage_error_taxonomy dbC4 2 1 "hi" "text" 9 9).2.2 "hi" rfl rfl rfl rfl⟩

/-- Unread count as the spec words it: messages of the group authored by
someone other than the user whose read-receipt set holds no entry for
the user. -/
def unreadSpec (db : DB) (g u : Nat) : Nat :=
  db.messages.countP
    (fun m => decide (m.group = g ∧ m.sender ≠ u ∧ ∀ r ∈ m.readBy, r.user ≠ u))

/-- Claim C5.  For an active member u of group g, the unread-count query
returns exactly the number of messages of g whose sender is not u and
whose readBy array holds no entry for u; u's own messages are never
counted. -/
theorem getUnreadMessageCount_correct (db : DB) (g u : Nat)
    (h : isActiveMember db u g = true) :
    getUnreadMessageCount db g u = Except.ok (unreadSpec db g u) := by
  simp only [getUnreadMessageCount, h, Bool.not_true, Bool.false_eq_true, if_false,
    unreadSpec, List.countP_eq_length_filter, Except.ok.injEq]
  congr 1
  apply List.filter_congr
  intro m _
  rw [Bool.eq_iff_iff]
  simp only [Bool.and_eq_true, beq_iff_eq, Bool.not_eq_true', List.any_eq_false,
    decide_eq_true_eq]
  constructor
  · rintro ⟨⟨h1, h2⟩, h3⟩
    exact ⟨h1, fun hs => by simp [hs] at h3, fun r hr hru => by simpa [hru] using h2 r hr⟩
  · rintro ⟨h1, h2, h3⟩
    exact ⟨⟨h1, fun r hr => by simpa using h3 r hr⟩, by simpa using h2⟩

/-- A store realizing the spec example for C5: three messages from user
1 in group 1; user 2 (an active member) has read the first two. -/
def dbC5 : DB :=
  { users := [⟨1, "a@x.com"⟩, ⟨2, "b@x.com"⟩]
    groups := [⟨1, "General", "", some 1, true, 50, []⟩]
    members := [⟨1, 1, "admin", 0, true⟩, ⟨2, 1, "member", 1, true⟩]
    messages :=
      [⟨1, "m1", 1, 1, "text", [⟨1, 0⟩, ⟨2, 5⟩], 0⟩,
        ⟨2, "m2", 1, 1, "text", [⟨1, 1⟩, ⟨2, 5⟩], 1⟩,
        ⟨3, "m3", 1, 1, "text", [⟨1, 2⟩], 2⟩] }

/-- Witness for the C5 theorem: after reading two of the three messages,
user 2's unread count is 1. -/
theorem getUnreadMessageCount_correct_app :
    isActiveMember dbC5 2 1 = true ∧
    getUnreadMessageCount dbC5 1 2 = Except.ok 1 :=
  ⟨by decide, (getUnreadMessageCount_correct dbC5 1 2 (by decide)).trans (by rfl)⟩

/-- Claim C3.  For page ≥ 1 and limit ∈ [1,100], the engine serves the
requested newest-first page reversed to chronological order: the
returned messages are ascending in createdAt; the metadata carries
currentPage = page, totalMessages = the group's stored count, totalPages
= ceil(total/limit) (characterized by total ≤ totalPages·limit <
total+limit), hasNext ↔ page < totalPages and hasPrev ↔ page > 1; and
page 1 holds the most recent messages — any stored message of the group
left off page 1 is no newer than every returned one. -/
theorem getMessagesWithPagination_correct (db : DB) (g page limit : Nat)
    (hpage : 1 ≤ page) (hlim : 1 ≤ limit) (hlim2 : limit ≤ 100) :
    (getMessagesWithPagination db g page limit).1.Pairwise
        (fun a b => a.createdAt ≤ b.createdAt) ∧
    (getMessagesWithPagination db g page limit).2.currentPage = page ∧
    (getMessagesWithPagination db g page limit).2.totalMessages =
      (db.messages.filter (fun m => m.group == g)).length ∧
    ((db.messages.filter (fun m => m.group == g)).length ≤
        (getMessagesWithPagination db g page limit).2.totalPages * limit ∧
      (getMessagesWithPagination db g page limit).2.totalPages * limit <
        (db.messages.filter (fun m => m.group == g)).length + limit) ∧
    ((getMessagesWithPagination db g page limit).2.hasNext = true ↔
      page < (getMessagesWithPagination db g page limit).2.totalPages) ∧
    ((getMessagesWithPagination db g page limit).2.hasPrev = true ↔ 1 < page) ∧
    (page = 1 → ∀ x ∈ db.messages.filter (fun m => m.group == g),
      x ∉ (getMessagesWithPagination db g page limit).1 →
      ∀ y ∈ (getMessagesWithPagination db g page limit).1,
        x.createdAt ≤ y.createdAt) := by
  have hsorted : List.Sorted msgDesc
      ((db.messages.filter (fun m => m.group == g)).insertionSort msgDesc) :=
    List.sorted_insertionSort msgDesc _
  refine ⟨?_, rfl, rfl, ?_, ⟨of_decide_eq_true, decide_eq_true⟩,
    ⟨of_decide_eq_true, decide_eq_true⟩, ?_⟩
  · have hsub : (((db.messages.filter (fun m => m.group == g)).insertionSort
          msgDesc).drop ((page - 1) * limit)).take limit |>.Sublist
        ((db.messages.filter (fun m => m.group == g)).insertionSort msgDesc) :=
      (List.take_sublist _ _).trans (List.drop_sublist _ _)
    exact List.pairwise_reverse.mpr (List.Pairwise.sublist hsub hsorted)
  · show (db.messages.filter (fun m => m.group == g)).length ≤
        ceilDiv (db.messages.filter (fun m => m.group == g)).length limit * limit ∧
      ceilDiv (db.messages.filter (fun m => m.group == g)).length limit * limit <
        (db.messages.filter (fun m => m.group == g)).length + limit
    rw [ceilDiv, Nat.mul_comm]
    have h1 := Nat.div_add_mod
      ((db.messages.filter (fun m => m.group == g)).length + limit - 1) limit
    have h2 : ((db.messages.filter (fun m => m.group == g)).length + limit - 1) % limit <
        limit := Nat.mod_lt _ (by omega)
    generalize hX : limit *
        (((db.messages.filter (fun m => m.group == g)).length + limit - 1) / limit) = X at h1 ⊢
    omega
  · intro hp1 x hxL hxnot y hy
    subst hp1
    have hres : (getMessagesWithPagination db g 1 limit).1 =
        (((db.messages.filter (fun m => m.group == g)).insertionSort msgDesc).take
          limit).reverse := by
      simp [getMessagesWithPagination]
    rw [hres] at hxnot hy
    rw [List.mem_reverse] at hxnot hy
    have hxS : x ∈ (db.messages.filter (fun m => m.group == g)).insertionSort msgDesc :=
      (List.perm_insertionSort msgDesc _).symm.subset hxL
    have hsplit := List.take_append_drop limit
      ((db.messages.filter (fun m => m.group == g)).insertionSort msgDesc)
    have hpw : List.Pairwise msgDesc
        (((db.messages.filter (fun m => m.group == g)).insertionSort msgDesc).take limit ++
          ((db.messages.filter (fun m => m.group == g)).insertionSort msgDesc).drop limit) := by
      rw [hsplit]
      exact hsorted
    have hxdrop : x ∈ ((db.messages.filter (fun m => m.group == g)).insertionSort
        msgDesc).drop limit := by
      rw [← hsplit] at hxS
      rcases List.mem_append.mp hxS with h | h
      · exact absurd h hxnot
      · exact h
    exact (List.pairwise_append.mp hpw).2.2 y hy x hxdrop

/-- A store for the C3 witness: group 1 holds three messages with
timestamps 0, 1, 2. -/
def dbC3 : DB :=
  { users := [⟨1, "a@x.com"⟩]
    groups := [⟨1, "Team", "", some 1, true, 50, []⟩]
    members := [⟨1, 1, "member", 0, true⟩]
    messages :=
      [⟨1, "m1", 1, 1, "text", [], 0⟩,
        ⟨2, "m2", 1, 1, "text", [], 1⟩,
        ⟨3, "m3", 1, 1, "text", [], 2⟩] }

/-- Witness for the C3 theorem at dbC3 with page 1 and limit 2. -/
theorem getMessagesWithPagination_correct_app :
    (getMessagesWithPagination dbC3 1 1 2).1.Pairwise
        (fun a b => a.createdAt ≤ b.createdAt) ∧
    (getMessagesWithPagination dbC3 1 1 2).2.currentPage = 1 ∧
    (getMessagesWithPagination dbC3 1 1 2).2.totalMessages =
      (dbC3.messages.filter (fun m => m.group == 1)).length ∧
    ((dbC3.messages.filter (fun m => m.group == 1)).length ≤
        (getMessagesWithPagination dbC3 1 1 2).2.totalPages * 2 ∧
      (getMessagesWithPagination dbC3 1 1 2).2.totalPages * 2 <
        (dbC3.messages.filter (fun m => m.group == 1)).length + 2) ∧
    ((getMessagesWithPagination dbC3 1 1 2).2.hasNext = true ↔
      1 < (getMessagesWithPagination dbC3 1 1 2).2.totalPages) ∧
    ((getMessagesWithPagination dbC3 1 1 2).2.hasPrev = true ↔ 1 < 1) ∧
    (1 = 1 → ∀ x ∈ dbC3.messages.filter (fun m => m.group == 1),
      x ∉ (getMessagesWithPagination dbC3 1 1 2).1 →
      ∀ y ∈ (getMessagesWithPagination dbC3 1 1 2).1,
        x.createdAt ≤ y.createdAt) :=
  getMessagesWithPagination_correct dbC3 1 1 2 (by decide) (by decide) (by decide)

end Woodies
